import Mathlib

/-!
Verification of the amq2api core against its design specification.

The development shallowly embeds the account pool manager
(`app/core/account_pool.py`), the OpenAI protocol converter
(`app/core/openai_converter.py`) and the token cache consultation path
(`app/core/redis_cache.py`, `auth.py`) as pure Lean functions, and proves
or refutes the specification's claims about them.

Modelling conventions:
* `datetime` values are integers (seconds); `timedelta(minutes = m)` is `60 * m`.
* A SQLAlchemy session is a list of `Account` rows held in ascending-id order
  (the pool always queries with `.order_by(Account.id)`); committing a mutated
  ORM object is an in-place update of the row with the same id.
* `account_pool.py` reads and writes the fields `error_count`,
  `first_error_time`, `last_error_time` and `auto_recover_at`; the admin API
  schema (`app/api/admin.py`) declares them and the design document's data
  model (§3) requires the persistence collaborator to provide them, so the
  embedded `Account` record carries them even though the ORM class in
  `app/models/database.py` omits the four columns.
* Logging, locking and the database round trips are erased; each public
  operation becomes a pure state-passing function evaluated at one instant
  `now` (the code calls `datetime.now()` several times inside one operation,
  but nothing proved here depends on the clock moving within an operation).
-/

set_option linter.unusedVariables false

/-- One row of the `accounts` table, with the health-tracking fields used by
`AccountPoolManager` (see the module comment about the four error columns). -/
structure Account where
  id : Nat
  name : String
  is_active : Bool
  is_healthy : Bool
  last_health_check : Option Int
  health_check_error : Option String
  total_requests : Int
  total_tokens : Int
  last_used : Option Int
  requests_per_minute : Int
  current_rpm : Int
  rpm_reset_at : Option Int
  error_count : Int
  first_error_time : Option Int
  last_error_time : Option Int
  auto_recover_at : Option Int
  deriving Repr, DecidableEq, Inhabited

/-- The mutable state of `AccountPoolManager`: the shared round-robin cursor
`_current_index` together with the account rows visible through the session. -/
structure PoolState where
  current_index : Nat
  db : List Account
  deriving Repr, DecidableEq

/-- Filter of `_check_and_auto_recover_accounts` (account_pool.py 153-159):
unhealthy, with a recovery deadline that has passed. -/
def should_auto_recover (now : Int) (a : Account) : Bool :=
  !a.is_healthy &&
    (match a.auto_recover_at with
     | some t => decide (t ≤ now)
     | none => false)

/-- Field resets applied to a recovered account (account_pool.py 161-168). -/
def recover_account (now : Int) (a : Account) : Account :=
  { a with is_healthy := true, error_count := 0, first_error_time := none,
           last_error_time := none, health_check_error := none,
           auto_recover_at := none, last_health_check := some now }

/-- `_check_and_auto_recover_accounts` (account_pool.py 149-172). -/
def check_and_auto_recover_accounts (now : Int) (db : List Account) : List Account :=
  db.map fun a => if should_auto_recover now a then recover_account now a else a

/-- The rate-limit test of `get_next_account` (account_pool.py 57-61):
limited iff `rpm_reset_at` is set, `now` is before it, and the counter has
reached the ceiling. -/
def is_rate_limited (now : Int) (a : Account) : Bool :=
  match a.rpm_reset_at with
  | some t => decide (now < t) && decide (a.requests_per_minute ≤ a.current_rpm)
  | none => false

/-- Usage bookkeeping on the selected account (account_pool.py 74-82): reset
the window if expired or unset, then increment the counters. -/
def bump_usage (now : Int) (a0 : Account) : Account :=
  let a := if (match a0.rpm_reset_at with
               | none => true
               | some t => decide (t ≤ now)) then
      { a0 with current_rpm := 0, rpm_reset_at := some (now + 60) }
    else a0
  { a with current_rpm := a.current_rpm + 1,
           total_requests := a.total_requests + 1,
           last_used := some now }

/-- Commit of a mutated ORM object: replace the row carrying the same id. -/
def update_by_id (db : List Account) (i : Nat) (a : Account) : List Account :=
  db.map fun x => if x.id = i then a else x

/-- `AccountPoolManager.get_next_account` (account_pool.py 23-86): run the
auto-recovery sweep, keep the active healthy rows in id order, clamp the
cursor, scan one rotation for the first non-rate-limited candidate (falling
back to the cursor position when all are limited), bump the chosen account's
usage and advance the cursor past it. -/
def get_next_account (now : Int) (st : PoolState) : Option Account × PoolState :=
  let db := check_and_auto_recover_accounts now st.db
  let accounts := db.filter fun a => a.is_active && a.is_healthy
  if accounts.length = 0 then
    (none, { st with db := db })
  else
    let n := accounts.length
    let start := if n ≤ st.current_index then 0 else st.current_index
    match (List.range n).find? (fun i => !is_rate_limited now (accounts.getD ((start + i) % n) default)) with
    | some i =>
      let idx := (start + i) % n
      let sel := accounts.getD idx default
      let sel2 := bump_usage now sel
      (some sel2, { current_index := (idx + 1) % n, db := update_by_id db sel.id sel2 })
    | none =>
      let sel := accounts.getD start default
      let sel2 := bump_usage now sel
      (some sel2, { current_index := (start + 1) % n, db := update_by_id db sel.id sel2 })

/-- A sequence of selections, one per timestamp in `ts`, threading the pool
state and recording each outcome. -/
def select_many (ts : List Int) (st : PoolState) : List (Option Account) × PoolState :=
  match ts with
  | [] => ([], st)
  | t :: rest =>
    let r := get_next_account t st
    let rec' := select_many rest r.2
    (r.1 :: rec'.1, rec'.2)

/-- `_cleanup_old_errors` (account_pool.py 174-190): drop the error counters
when the first recorded error is older than the window. -/
def cleanup_old_errors (now : Int) (error_window_minutes : Int) (a : Account) : Account :=
  match a.first_error_time with
  | none => a
  | some t =>
    if t < now - 60 * error_window_minutes then
      { a with error_count := 0, first_error_time := none, last_error_time := none }
    else a

/-- `update_health_status` (account_pool.py 192-251), as a pure function of
the targeted account.  The success branch clears the counters (only when
`error_count > 0`); the failure branch ages out stale errors, starts or
extends the in-window count, and trips the breaker at five errors with a
30-minute recovery deadline. -/
def update_health_status (now : Int) (healthy : Bool) (error_message : Option String)
    (error_window_minutes : Int) (a0 : Account) : Account :=
  if healthy then
    if 0 < a0.error_count then
      { a0 with error_count := 0, first_error_time := none, last_error_time := none,
                health_check_error := none, auto_recover_at := none, is_healthy := true }
    else a0
  else
    let a1 := cleanup_old_errors now error_window_minutes a0
    let a2 :=
      match a1.first_error_time with
      | none => { a1 with first_error_time := some now, error_count := 1 }
      | some t =>
        if t < now - 60 * error_window_minutes then
          { a1 with first_error_time := some now, error_count := 1 }
        else
          { a1 with error_count := a1.error_count + 1 }
    let a3 := { a2 with last_error_time := some now, last_health_check := some now,
                        health_check_error := error_message }
    if 5 ≤ a3.error_count then
      if a3.is_healthy then
        { a3 with is_healthy := false, auto_recover_at := some (now + 60 * 30) }
      else
        match a3.auto_recover_at with
        | none => { a3 with auto_recover_at := some (now + 60 * 30) }
        | some t => if t < now then { a3 with auto_recover_at := some (now + 60 * 30) } else a3
    else a3

/-- `record_success` (account_pool.py 253-265): clear the error state and
restore health, but only when `error_count > 0`. -/
def record_success (a : Account) : Account :=
  if 0 < a.error_count then
    { a with error_count := 0, first_error_time := none, last_error_time := none,
             health_check_error := none, auto_recover_at := none, is_healthy := true }
  else a

/-- Reporting a run of failures through `update_health_status` with the
default 10-minute window. -/
def report_failures (msg : Option String) (ts : List Int) (a : Account) : Account :=
  ts.foldl (fun acc t => update_health_status t false msg 10 acc) a

/-- A healthy account with no recorded errors, used as the starting point of
the breaker scenarios. -/
def freshAccount : Account :=
  { id := 1, name := "acct-1", is_active := true, is_healthy := true,
    last_health_check := none, health_check_error := none,
    total_requests := 0, total_tokens := 0, last_used := none,
    requests_per_minute := 10, current_rpm := 0, rpm_reset_at := none,
    error_count := 0, first_error_time := none, last_error_time := none,
    auto_recover_at := none }

/-- An unhealthy account whose error counters are already zero: the state on
which the success-signal claim fails. -/
def unhealthyNoErrors : Account :=
  { id := 2, name := "acct-2", is_active := true, is_healthy := false,
    last_health_check := none, health_check_error := some ("boom"),
    total_requests := 0, total_tokens := 0, last_used := none,
    requests_per_minute := 10, current_rpm := 0, rpm_reset_at := none,
    error_count := 0, first_error_time := none, last_error_time := none,
    auto_recover_at := some 1000 }

/-- C4, counterexample: on an unhealthy account whose `error_count` is 0,
`record_success` and the success branch of `update_health_status` change
nothing: the account stays unhealthy and keeps its recovery deadline and
error detail, contradicting the claim that a success report clears these
fields and restores health in any state. -/
theorem record_success_skips_zero_count :
    record_success unhealthyNoErrors = unhealthyNoErrors
    ∧ (record_success unhealthyNoErrors).is_healthy = false
    ∧ (record_success unhealthyNoErrors).auto_recover_at = some 1000
    ∧ (record_success unhealthyNoErrors).health_check_error = some ("boom")
    ∧ update_health_status 0 true none 10 unhealthyNoErrors = unhealthyNoErrors := by
  refine ⟨rfl, rfl, rfl, rfl, rfl⟩

/-- C4, amended: a success report (`record_success`, or `update_health_status`
with `is_healthy = true`) clears `error_count`, `first_error_time`,
`last_error_time`, `health_check_error` and `auto_recover_at` and sets
`is_healthy = true` for every account whose `error_count` is positive; both
operations agree, and on an account whose `error_count` is not positive both
leave the account unchanged. -/
theorem record_success_clears_when_counted (a : Account) (now w : Int)
    (m : Option String) (h : 0 < a.error_count) :
    (record_success a).error_count = 0
    ∧ (record_success a).first_error_time = none
    ∧ (record_success a).last_error_time = none
    ∧ (record_success a).health_check_error = none
    ∧ (record_success a).auto_recover_at = none
    ∧ (record_success a).is_healthy = true
    ∧ update_health_status now true m w a = record_success a
    ∧ (∀ b : Account, b.error_count ≤ 0 →
        record_success b = b ∧ update_health_status now true m w b = b) := by
  refine ⟨?_, ?_, ?_, ?_, ?_, ?_, ?_, ?_⟩
  · simp [record_success, h]
  · simp [record_success, h]
  · simp [record_success, h]
  · simp [record_success, h]
  · simp [record_success, h]
  · simp [record_success, h]
  · simp [record_success, update_health_status, h]
  · intro b hb
    constructor
    · simp [record_success, Int.not_lt.mpr hb]
    · simp [update_health_status, Int.not_lt.mpr hb]

/-- C4, witness for the amended theorem at a concrete account with one
recorded error. -/
theorem record_success_clears_when_counted_witness :
    (0 : Int) < ({ freshAccount with error_count := 1 } : Account).error_count
    ∧ (record_success { freshAccount with error_count := 1 }).is_healthy = true := by
  have h : (0 : Int) < ({ freshAccount with error_count := 1 } : Account).error_count := by decide
  exact ⟨h, (record_success_clears_when_counted _ 0 10 none h).2.2.2.2.2.1⟩

/-- A failure reported on an account with no recorded first error starts a
fresh window: count 1 anchored at `now` (account_pool.py 225-228). -/
theorem update_health_first_failure (a : Account) (now : Int) (m : Option String)
    (hf : a.first_error_time = none) (hc : a.error_count < 4) :
    update_health_status now false m 10 a =
      { a with first_error_time := some now, error_count := 1,
               last_error_time := some now, last_health_check := some now,
               health_check_error := m } := by
  simp only [update_health_status, cleanup_old_errors, hf]
  norm_num

/-- A failure inside the window increments the count; below five errors the
health flag is untouched (account_pool.py 229-249). -/
theorem update_health_in_window_below (a : Account) (t0 now : Int) (m : Option String)
    (hf : a.first_error_time = some t0) (hw : now - 600 ≤ t0) (hc : a.error_count + 1 < 5) :
    update_health_status now false m 10 a =
      { a with error_count := a.error_count + 1,
               last_error_time := some now, last_health_check := some now,
               health_check_error := m } := by
  have hnl : ¬ t0 < now - 60 * 10 := by omega
  simp only [update_health_status, cleanup_old_errors, hf, if_neg hnl]
  norm_num
  omega

/-- The fifth in-window failure on a healthy account trips the breaker and
sets the 30-minute recovery deadline (account_pool.py 237-243). -/
theorem update_health_in_window_trips (a : Account) (t0 now : Int) (m : Option String)
    (hf : a.first_error_time = some t0) (hw : now - 600 ≤ t0)
    (hc : 5 ≤ a.error_count + 1) (hh : a.is_healthy = true) :
    update_health_status now false m 10 a =
      { a with error_count := a.error_count + 1,
               last_error_time := some now, last_health_check := some now,
               health_check_error := m,
               is_healthy := false, auto_recover_at := some (now + 1800) } := by
  have hnl : ¬ t0 < now - 60 * 10 := by omega
  simp only [update_health_status, cleanup_old_errors, hf, if_neg hnl]
  norm_num
  rw [if_pos hc, if_pos hh]

/-- C3: starting from a healthy account with no prior errors, four failures
whose reporting instants keep the first error inside the 10-minute window
leave `is_healthy = true`; a fifth failure in the same window flips it to
`false` and sets `auto_recover_at = now + 30` minutes; and on any account
whose existing `first_error_time` is older than `now` minus the window, a
failure resets the count to 1 with a fresh `first_error_time` instead of
incrementing. -/
theorem five_failures_trip_breaker (a : Account) (t1 t2 t3 t4 t5 : Int) (m : Option String)
    (hc : a.error_count = 0) (hf : a.first_error_time = none) (hh : a.is_healthy = true)
    (h2 : t2 - 600 ≤ t1) (h3 : t3 - 600 ≤ t1) (h4 : t4 - 600 ≤ t1) (h5 : t5 - 600 ≤ t1) :
    (report_failures m [t1, t2, t3, t4] a).is_healthy = true
    ∧ (report_failures m [t1, t2, t3, t4] a).error_count = 4
    ∧ (report_failures m [t1, t2, t3, t4, t5] a).is_healthy = false
    ∧ (report_failures m [t1, t2, t3, t4, t5] a).auto_recover_at = some (t5 + 1800)
    ∧ (∀ (b : Account) (t0 now : Int),
        b.first_error_time = some t0 → t0 < now - 600 →
          (update_health_status now false m 10 b).error_count = 1
          ∧ (update_health_status now false m 10 b).first_error_time = some now) := by
  have s1 : update_health_status t1 false m 10 a =
      { a with first_error_time := some t1, error_count := 1,
               last_error_time := some t1, last_health_check := some t1,
               health_check_error := m } :=
    update_health_first_failure a t1 m hf (by omega)
  have s2 := update_health_in_window_below
    ({ a with first_error_time := some t1, error_count := 1,
              last_error_time := some t1, last_health_check := some t1,
              health_check_error := m }) t1 t2 m rfl h2 (by simp)
  norm_num at s2
  have s3 := update_health_in_window_below
    ({ a with first_error_time := some t1, error_count := 2,
              last_error_time := some t2, last_health_check := some t2,
              health_check_error := m }) t1 t3 m rfl h3 (by simp)
  norm_num at s3
  have s4 := update_health_in_window_below
    ({ a with first_error_time := some t1, error_count := 3,
              last_error_time := some t3, last_health_check := some t3,
              health_check_error := m }) t1 t4 m rfl h4 (by simp)
  norm_num at s4
  have s5 := update_health_in_window_trips
    ({ a with first_error_time := some t1, error_count := 4,
              last_error_time := some t4, last_health_check := some t4,
              health_check_error := m }) t1 t5 m rfl h5 (by simp) (by simpa using hh)
  norm_num at s5
  have e4 : report_failures m [t1, t2, t3, t4] a =
      { a with first_error_time := some t1, error_count := 4,
               last_error_time := some t4, last_health_check := some t4,
               health_check_error := m } := by
    simp only [report_failures, List.foldl, s1, s2, s3, s4]
  have e5 : report_failures m [t1, t2, t3, t4, t5] a =
      { a with first_error_time := some t1, error_count := 5,
               last_error_time := some t5, last_health_check := some t5,
               health_check_error := m,
               is_healthy := false, auto_recover_at := some (t5 + 1800) } := by
    simp only [report_failures, List.foldl, s1, s2, s3, s4, s5]
  refine ⟨?_, ?_, ?_, ?_, ?_⟩
  · rw [e4]; exact hh
  · rw [e4]
  · rw [e5]
  · rw [e5]
  · intro b t0 now hb ht
    have hl : t0 < now - 60 * 10 := by omega
    simp only [update_health_status, cleanup_old_errors, hb, if_pos hl]
    norm_num

/-- C3, witness: the five-failure scenario at concrete instants 0, 60, 120,
180, 240 on the fresh account. -/
theorem five_failures_trip_breaker_witness :
    (report_failures none [0, 60, 120, 180] freshAccount).is_healthy = true
    ∧ (report_failures none [0, 60, 120, 180, 240] freshAccount).is_healthy = false
    ∧ (report_failures none [0, 60, 120, 180, 240] freshAccount).auto_recover_at = some 2040 := by
  have h := five_failures_trip_breaker freshAccount 0 60 120 180 240 none
    rfl rfl rfl (by norm_num) (by norm_num) (by norm_num) (by norm_num)
  exact ⟨h.1, h.2.2.1, by simpa using h.2.2.2.1⟩

/-- Bridge between `List.getD` and `List.get` inside the bounds. -/
theorem getD_eq_get {α : Type} (l : List α) (d : α) :
    ∀ (n : Nat) (h : n < l.length), l.getD n d = l.get ⟨n, h⟩ := by
  induction l with
  | nil => intro n h; simp at h
  | cons x xs ih =>
    intro n h
    cases n with
    | zero => rfl
    | succ m => simpa using ih m (by simpa using h)

/-- `List.set` at one position leaves `getD` at any other position alone. -/
theorem getD_set_other {α : Type} (d : α) :
    ∀ (l : List α) (c i : Nat) (a : α), i ≠ c → (l.set c a).getD i d = l.getD i d := by
  intro l
  induction l with
  | nil => intro c i a h; simp
  | cons x xs ih =>
    intro c i a h
    cases c with
    | zero =>
      cases i with
      | zero => exact absurd rfl h
      | succ i' => rfl
    | succ c' =>
      cases i with
      | zero => rfl
      | succ i' => simpa using ih c' i' a (by omega)

/-- `List.set` at one position puts the new value there. -/
theorem getD_set_self {α : Type} (d : α) :
    ∀ (l : List α) (c : Nat) (a : α), c < l.length → (l.set c a).getD c d = a := by
  intro l
  induction l with
  | nil => intro c a h; simp at h
  | cons x xs ih =>
    intro c a h
    cases c with
    | zero => rfl
    | succ c' => simpa using ih c' a (by simpa using h)

/-- In a list whose rows carry pairwise increasing ids, rows at distinct
positions carry distinct ids. -/
theorem sorted_ids_ne (accts : List Account)
    (hs : accts.Pairwise (fun x y => x.id < y.id)) (i j : Nat)
    (hi : i < accts.length) (hj : j < accts.length) (hne : i ≠ j) :
    (accts.getD i default).id ≠ (accts.getD j default).id := by
  rw [getD_eq_get accts default i hi, getD_eq_get accts default j hj]
  rcases Nat.lt_or_ge i j with h | h
  · exact Nat.ne_of_lt (List.pairwise_iff_get.mp hs ⟨i, hi⟩ ⟨j, hj⟩ h)
  · have hji : j < i := by omega
    exact (Nat.ne_of_lt (List.pairwise_iff_get.mp hs ⟨j, hj⟩ ⟨i, hi⟩ hji)).symm

/-- Replacing the row that carries the id of position `c` is `List.set` at
`c`, provided no other row shares that id. -/
theorem update_by_id_eq_set :
    ∀ (db : List Account) (c : Nat), c < db.length → ∀ (a : Account),
      (∀ i, i < db.length → i ≠ c →
        (db.getD i default).id ≠ (db.getD c default).id) →
      update_by_id db (db.getD c default).id a = db.set c a := by
  intro db
  induction db with
  | nil => intro c hc; simp at hc
  | cons x xs ih =>
    intro c hc a hinj
    cases c with
    | zero =>
      simp only [update_by_id, List.map_cons, List.set, List.getD_cons_zero, if_true]
      have htail : ∀ y ∈ xs, (if y.id = x.id then a else y) = y := by
        intro y hy
        obtain ⟨⟨i, hilt⟩, rfl⟩ := List.mem_iff_get.mp hy
        have hgd : (x :: xs).getD (i + 1) default = xs.get ⟨i, hilt⟩ := by
          simpa using getD_eq_get xs default i hilt
        have hne := hinj (i + 1) (by simpa using Nat.succ_lt_succ hilt) (by omega)
        rw [hgd, List.getD_cons_zero] at hne
        rw [if_neg hne]
      rw [List.map_congr_left htail]
      simp
    | succ c' =>
      have hc' : c' < xs.length := by simpa using hc
      have hkey : (x :: xs).getD (c' + 1) default = xs.getD c' default := by rfl
      have hx : x.id ≠ (xs.getD c' default).id := by
        have := hinj 0 (by simp) (by omega)
        rw [List.getD_cons_zero, hkey] at this
        exact this
      simp only [update_by_id, List.map_cons, List.set, hkey]
      rw [if_neg hx]
      have htail := ih c' hc' a (fun i hi hne => by
        have := hinj (i + 1) (by simpa using Nat.succ_lt_succ hi) (by omega)
        have hgd : (x :: xs).getD (i + 1) default = xs.getD i default := rfl
        rw [hgd, hkey] at this
        exact this)
      simp only [update_by_id] at htail
      rw [htail]

/-- Counting formula for residues in an initial segment: among
`0, 1, …, N-1` exactly `N / k` numbers (plus one more when `i < N % k`)
are congruent to `i` modulo `k`. -/
theorem range_filter_mod_length (k i : Nat) (hk : 0 < k) (hi : i < k) :
    ∀ N : Nat, ((List.range N).filter (fun m => m % k == i)).length
      = N / k + (if i < N % k then 1 else 0) := by
  intro N
  induction N with
  | zero => simp
  | succ n ih =>
    rw [List.range_succ, List.filter_append, List.length_append, ih]
    have hsing : (List.filter (fun m => m % k == i) [n]).length
        = if n % k = i then 1 else 0 := by
      by_cases h : n % k = i <;> simp [h]
    rw [hsing]
    have hr : n % k < k := Nat.mod_lt _ hk
    have hn : n = k * (n / k) + n % k := (Nat.div_add_mod n k).symm
    have hsucc : n + 1 = (n % k + 1) + k * (n / k) := by omega
    by_cases hcase : n % k + 1 < k
    · have hmod : (n + 1) % k = n % k + 1 := by
        rw [hsucc, Nat.add_mul_mod_self_left, Nat.mod_eq_of_lt hcase]
      have hdiv : (n + 1) / k = n / k := by
        rw [hsucc, Nat.add_mul_div_left _ _ hk, Nat.div_eq_of_lt hcase]
        omega
      rw [hmod, hdiv]
      split_ifs <;> omega
    · have hek : n % k + 1 = k := by omega
      have hmod : (n + 1) % k = 0 := by
        rw [hsucc, Nat.add_mul_mod_self_left, hek, Nat.mod_self]
      have hdiv : (n + 1) / k = n / k + 1 := by
        rw [hsucc, Nat.add_mul_div_left _ _ hk, hek, Nat.div_self hk]
        omega
      rw [hmod, hdiv]
      split_ifs <;> omega

/-- The ceiling `⌈N/k⌉ = (N + k - 1) / k` exceeds the floor by one exactly
when `k` does not divide `N`. -/
theorem ceil_div_eq (N k : Nat) (hk : 0 < k) (hr : N % k ≠ 0) :
    (N + k - 1) / k = N / k + 1 := by
  have hrk : N % k < k := Nat.mod_lt _ hk
  have hn : N = k * (N / k) + N % k := (Nat.div_add_mod N k).symm
  have h1 : N + k - 1 = (N % k - 1) + k * (N / k + 1) := by
    rw [Nat.mul_succ]; omega
  rw [h1, Nat.add_mul_div_left _ _ hk, Nat.div_eq_of_lt (by omega)]
  omega

/-- `find?` over `map`, specialised to what the scan proof needs. -/
theorem find?_map_eq (f : Nat → Nat) (p : Nat → Bool) :
    ∀ l : List Nat, (l.map f).find? p = (l.find? (fun x => p (f x))).map f := by
  intro l
  induction l with
  | nil => rfl
  | cons a l ih => by_cases h : p (f a) <;> simp [List.find?_cons, h, ih]

/-- `find?` on `range n` returns the least index satisfying the predicate. -/
theorem range_find?_eq :
    ∀ (i : Nat) (p : Nat → Bool) (n : Nat), i < n →
      (∀ m, m < i → p m = false) → p i = true →
      (List.range n).find? p = some i := by
  intro i
  induction i with
  | zero =>
    intro p n hn h0 hp
    obtain ⟨m, rfl⟩ : ∃ m, n = m + 1 := ⟨n - 1, by omega⟩
    rw [List.range_succ_eq_map]
    exact List.find?_cons_of_pos _ hp
  | succ j ih =>
    intro p n hn hbef hp
    obtain ⟨m, rfl⟩ : ∃ m, n = m + 1 := ⟨n - 1, by omega⟩
    rw [List.range_succ_eq_map]
    rw [List.find?_cons_of_neg _ (by simp [hbef 0 (Nat.succ_pos j)])]
    rw [find?_map_eq]
    have hrec := ih (fun x => p (x + 1)) m (by omega)
      (fun x hx => hbef (x + 1) (by omega)) (by simpa using hp)
    simp only [Nat.succ_eq_add_one]
    rw [show (fun x => p (Nat.succ x)) = (fun x => p (x + 1)) from rfl, hrec]
    rfl

/-- The auto-recovery sweep does not touch a pool of healthy accounts. -/
theorem auto_recover_noop (now : Int) (db : List Account)
    (h : ∀ a ∈ db, a.is_healthy = true) :
    check_and_auto_recover_accounts now db = db := by
  unfold check_and_auto_recover_accounts
  induction db with
  | nil => rfl
  | cons a l ih =>
    have ha : should_auto_recover now a = false := by
      simp [should_auto_recover, h a (by simp)]
    simp only [List.map_cons]
    rw [ih (fun x hx => h x (by simp [hx]))]
    simp [ha]

/-- Filtering for active healthy rows keeps a pool in which every row is
active and healthy. -/
theorem filter_active_healthy_self (db : List Account)
    (h : ∀ a ∈ db, a.is_active = true ∧ a.is_healthy = true) :
    (db.filter fun a => a.is_active && a.is_healthy) = db :=
  List.filter_eq_self.mpr (by intro a ha; simp [(h a ha).1, (h a ha).2])

/-- `bump_usage` only touches the usage fields. -/
theorem bump_usage_fields (now : Int) (a : Account) :
    (bump_usage now a).id = a.id
    ∧ (bump_usage now a).is_active = a.is_active
    ∧ (bump_usage now a).is_healthy = a.is_healthy
    ∧ (bump_usage now a).requests_per_minute = a.requests_per_minute
    ∧ ((bump_usage now a).current_rpm = 1
       ∨ (bump_usage now a).current_rpm = a.current_rpm + 1) := by
  unfold bump_usage
  split <;> simp

/-- Invariant of the round-robin run: after `j` selections from an
all-healthy never-rate-limited pool, the rows still carry the original ids,
flags and ceilings in order, every counter is at most `j`, and the shared
cursor sits at `j` modulo the pool size. -/
structure RRInv (accts : List Account) (j : Nat) (st : PoolState) : Prop where
  hlen : st.db.length = accts.length
  hid : ∀ i, i < accts.length → (st.db.getD i default).id = (accts.getD i default).id
  hact : ∀ a ∈ st.db, a.is_active = true
  hhea : ∀ a ∈ st.db, a.is_healthy = true
  hceil : ∀ i, i < accts.length →
    (st.db.getD i default).requests_per_minute
      = (accts.getD i default).requests_per_minute
  hrpm : ∀ a ∈ st.db, a.current_rpm ≤ (j : Int)
  hcur : st.current_index = j % accts.length

/-- One selection step under the invariant: the account at cursor position
`j % k` is chosen (it is not rate-limited because its counter is below the
ceiling), its usage is bumped in place, the cursor advances, and the
invariant moves to `j + 1`. -/
theorem get_next_account_step (accts : List Account) (N j : Nat) (now : Int) (st : PoolState)
    (hs : accts.Pairwise (fun x y => x.id < y.id))
    (hk : 0 < accts.length)
    (hceilN : ∀ i, i < accts.length → (N : Int) ≤ (accts.getD i default).requests_per_minute)
    (hjN : j < N)
    (inv : RRInv accts j st) :
    get_next_account now st =
      (some (bump_usage now (st.db.getD (j % accts.length) default)),
       { current_index := (j + 1) % accts.length,
         db := st.db.set (j % accts.length)
                 (bump_usage now (st.db.getD (j % accts.length) default)) })
    ∧ RRInv accts (j + 1)
        { current_index := (j + 1) % accts.length,
          db := st.db.set (j % accts.length)
                  (bump_usage now (st.db.getD (j % accts.length) default)) } := by
  obtain ⟨hlen, hid, hact, hhea, hceil, hrpm, hcur⟩ := inv
  have hjk : j % accts.length < accts.length := Nat.mod_lt _ hk
  set k := accts.length with hkdef
  set c := j % k with hcdef
  set sel := st.db.getD c default with hseldef
  have hselmem : sel ∈ st.db := by
    rw [hseldef, getD_eq_get st.db default c (by omega)]
    exact List.get_mem _ _ _
  have hnotlim : is_rate_limited now sel = false := by
    have h1 : sel.current_rpm ≤ (j : Int) := hrpm sel hselmem
    have h2 : (N : Int) ≤ sel.requests_per_minute := by
      rw [hseldef, hceil c hjk]
      exact hceilN c hjk
    have hjNi : (j : Int) < (N : Int) := by exact_mod_cast hjN
    have h3 : ¬ (sel.requests_per_minute ≤ sel.current_rpm) := by omega
    unfold is_rate_limited
    cases hr : sel.rpm_reset_at with
    | none => rfl
    | some t => simp [h3]
  have hrec : check_and_auto_recover_accounts now st.db = st.db :=
    auto_recover_noop now st.db hhea
  have hfil : (st.db.filter fun a => a.is_active && a.is_healthy) = st.db :=
    filter_active_healthy_self st.db (fun a ha => ⟨hact a ha, hhea a ha⟩)
  have hne0 : ¬ (st.db.length = 0) := by omega
  have hclamp : (if st.db.length ≤ st.current_index then 0 else st.current_index) = c := by
    rw [hcur, hlen]
    exact if_neg (by omega)
  have hczero : (c + 0) % st.db.length = c := by
    rw [Nat.add_zero, hlen]
    exact Nat.mod_eq_of_lt hjk
  have hfind : (List.range st.db.length).find?
      (fun i => !is_rate_limited now (st.db.getD ((c + i) % st.db.length) default))
      = some 0 := by
    apply range_find?_eq 0 _ _ (by omega) (fun m hm => absurd hm (Nat.not_lt_zero m))
    rw [hczero, ← hseldef, hnotlim]
    rfl
  have hinj : ∀ i, i < st.db.length → i ≠ c →
      (st.db.getD i default).id ≠ (st.db.getD c default).id := by
    intro i hi hne
    rw [hid i (by omega), hid c hjk]
    exact sorted_ids_ne accts hs i c (by omega) hjk hne
  have hupd := update_by_id_eq_set st.db c (by omega) (bump_usage now sel) hinj
  have hcurstep : (c + 1) % st.db.length = (j + 1) % k := by
    rw [hlen, hcdef]
    exact Nat.mod_add_mod j k 1
  have hbf := bump_usage_fields now sel
  constructor
  · simp only [get_next_account, hrec, hfil, if_neg hne0, hclamp, hfind]
    rw [hczero, ← hseldef, hupd, hcurstep]
  · refine ⟨?_, ?_, ?_, ?_, ?_, ?_, ?_⟩
    · simpa using hlen
    · intro i hi
      by_cases hic : i = c
      · rw [hic, getD_set_self default st.db c (bump_usage now sel) (by omega)]
        rw [hbf.1, hseldef]
        exact hid c hjk
      · rw [getD_set_other default st.db c i (bump_usage now sel) hic]
        exact hid i hi
    · intro a ha
      rcases List.mem_or_eq_of_mem_set ha with h | h
      · exact hact a h
      · rw [h, hbf.2.1]
        exact hact sel hselmem
    · intro a ha
      rcases List.mem_or_eq_of_mem_set ha with h | h
      · exact hhea a h
      · rw [h, hbf.2.2.1]
        exact hhea sel hselmem
    · intro i hi
      by_cases hic : i = c
      · rw [hic, getD_set_self default st.db c (bump_usage now sel) (by omega)]
        rw [hbf.2.2.2.1, hseldef]
        exact hceil c hjk
      · rw [getD_set_other default st.db c i (bump_usage now sel) hic]
        exact hceil i hi
    · intro a ha
      have hj1 : ((j : Int) + 1) = ((j + 1 : Nat) : Int) := by push_cast; ring
      rcases List.mem_or_eq_of_mem_set ha with h | h
      · have := hrpm a h
        omega
      · rcases hbf.2.2.2.2 with hb | hb
        · rw [h, hb]
          have : (0 : Int) ≤ (j : Int) := Int.ofNat_nonneg j
          omega
        · rw [h, hb]
          have := hrpm sel hselmem
          omega
    · rfl

/-- Iterating selections under the invariant: a run of `ts.length` further
selections visits cursor positions `j, j+1, …` modulo the pool size. -/
theorem select_many_rr (accts : List Account)
    (hs : accts.Pairwise (fun x y => x.id < y.id)) (hk : 0 < accts.length) (N : Nat)
    (hceilN : ∀ i, i < accts.length →
      (N : Int) ≤ (accts.getD i default).requests_per_minute) :
    ∀ (ts : List Int) (j : Nat) (st : PoolState), j + ts.length ≤ N → RRInv accts j st →
      ((select_many ts st).1.map (Option.map Account.id)
         = (List.range ts.length).map
             (fun m => some ((accts.getD ((j + m) % accts.length) default).id)))
      ∧ RRInv accts (j + ts.length) (select_many ts st).2 := by
  intro ts
  induction ts with
  | nil =>
    intro j st hN inv
    exact ⟨rfl, by simpa using inv⟩
  | cons t rest ih =>
    intro j st hN inv
    obtain ⟨heq, hinv⟩ := get_next_account_step accts N j t st hs hk hceilN
      (by simp at hN; omega) inv
    have hrest := ih (j + 1) _ (by simp at hN ⊢; omega) hinv
    constructor
    · show ((get_next_account t st).1 :: (select_many rest (get_next_account t st).2).1).map
          (Option.map Account.id) = _
      rw [heq]
      simp only [List.map_cons, Option.map_some']
      rw [List.length_cons, List.range_succ_eq_map, List.map_cons, List.map_map]
      rw [List.cons_eq_cons]
      constructor
      · rw [(bump_usage_fields t _).1, Nat.add_zero]
        exact congrArg some (inv.hid (j % accts.length) (Nat.mod_lt _ hk))
      · rw [hrest.1]
        apply List.map_congr_left
        intro m hm
        simp only [Function.comp]
        rw [show j + Nat.succ m = (j + 1) + m from by omega]
    · show RRInv accts (j + (rest.length + 1))
        (select_many rest (get_next_account t st).2).2
      rw [show j + (rest.length + 1) = (j + 1) + rest.length from by omega]
      rw [heq]
      exact hrest.2

/-- Counting occurrences in a mapped range is counting the matching
arguments. -/
theorem count_map_range_eq (f : Nat → Option Nat) (y : Option Nat) :
    ∀ N : Nat, ((List.range N).map f).count y
      = ((List.range N).filter (fun m => f m == y)).length := by
  intro N
  induction N with
  | zero => rfl
  | succ n ih =>
    rw [List.range_succ, List.map_append, List.filter_append,
        List.count_append, ih, List.length_append]
    by_cases h : f n == y <;> simp [List.count_cons, h]

/-- C1: starting a fresh manager on a pool of `k` active healthy accounts in
ascending-id order whose counters are zero and whose per-minute ceilings are
at least `N = ts.length` (so no account ever rate-limits during the run),
the `N` selections visit the accounts in round-robin order of id, and each
account is chosen exactly `⌊N/k⌋` or `⌈N/k⌉ = (N+k-1)/k` times. -/
theorem round_robin_fair (accts : List Account) (ts : List Int)
    (hs : accts.Pairwise (fun x y => x.id < y.id))
    (hk : 0 < accts.length)
    (hact : ∀ a ∈ accts, a.is_active = true)
    (hhea : ∀ a ∈ accts, a.is_healthy = true)
    (hrpm0 : ∀ a ∈ accts, a.current_rpm = 0)
    (hceil : ∀ a ∈ accts, (ts.length : Int) ≤ a.requests_per_minute) :
    ((select_many ts { current_index := 0, db := accts }).1.map (Option.map Account.id)
       = (List.range ts.length).map
           (fun m => some ((accts.getD (m % accts.length) default).id)))
    ∧ (∀ i, i < accts.length →
        ((select_many ts { current_index := 0, db := accts }).1.map
            (Option.map Account.id)).count (some ((accts.getD i default).id))
          = ts.length / accts.length
            + (if i < ts.length % accts.length then 1 else 0))
    ∧ (∀ i, i < accts.length →
        ((select_many ts { current_index := 0, db := accts }).1.map
            (Option.map Account.id)).count (some ((accts.getD i default).id))
            = ts.length / accts.length
        ∨ ((select_many ts { current_index := 0, db := accts }).1.map
            (Option.map Account.id)).count (some ((accts.getD i default).id))
            = (ts.length + accts.length - 1) / accts.length) := by
  have hmem : ∀ i, i < accts.length → accts.getD i default ∈ accts := by
    intro i hi
    rw [getD_eq_get accts default i hi]
    exact List.get_mem _ _ _
  have hceilN : ∀ i, i < accts.length →
      (ts.length : Int) ≤ (accts.getD i default).requests_per_minute :=
    fun i hi => hceil _ (hmem i hi)
  have inv0 : RRInv accts 0 { current_index := 0, db := accts } :=
    ⟨rfl, fun i _ => rfl, hact, hhea, fun i _ => rfl,
     fun a ha => le_of_eq (hrpm0 a ha), (Nat.zero_mod _).symm⟩
  have hrun := select_many_rr accts hs hk ts.length hceilN ts 0
    { current_index := 0, db := accts } (by omega) inv0
  have htrace : (select_many ts { current_index := 0, db := accts }).1.map
      (Option.map Account.id)
      = (List.range ts.length).map
          (fun m => some ((accts.getD (m % accts.length) default).id)) := by
    rw [hrun.1]
    apply List.map_congr_left
    intro m hm
    rw [Nat.zero_add]
  refine ⟨htrace, ?_, ?_⟩
  · intro i hi
    rw [htrace, count_map_range_eq]
    have hpred : ∀ m ∈ List.range ts.length,
        ((fun m => some ((accts.getD (m % accts.length) default).id)) m
            == some ((accts.getD i default).id))
          = (m % accts.length == i) := by
      intro m hm
      by_cases h : m % accts.length = i
      · simp [h]
      · have hne := sorted_ids_ne accts hs (m % accts.length) i
          (Nat.mod_lt _ hk) hi h
        have h1 : ((m % accts.length == i) : Bool) = false := by
          simpa using h
        have h2 : ((some ((accts.getD (m % accts.length) default).id)
            == some ((accts.getD i default).id)) : Bool) = false := by
          simpa using hne
        simp only [h1, h2]
    rw [List.filter_congr hpred]
    exact range_filter_mod_length accts.length i hk hi ts.length
  · intro i hi
    rw [htrace, count_map_range_eq]
    have hpred : ∀ m ∈ List.range ts.length,
        ((fun m => some ((accts.getD (m % accts.length) default).id)) m
            == some ((accts.getD i default).id))
          = (m % accts.length == i) := by
      intro m hm
      by_cases h : m % accts.length = i
      · simp [h]
      · have hne := sorted_ids_ne accts hs (m % accts.length) i
          (Nat.mod_lt _ hk) hi h
        have h1 : ((m % accts.length == i) : Bool) = false := by
          simpa using h
        have h2 : ((some ((accts.getD (m % accts.length) default).id)
            == some ((accts.getD i default).id)) : Bool) = false := by
          simpa using hne
        simp only [h1, h2]
    rw [List.filter_congr hpred,
        range_filter_mod_length accts.length i hk hi ts.length]
    by_cases hlt : i < ts.length % accts.length
    · right
      have hr0 : ts.length % accts.length ≠ 0 := by omega
      rw [ceil_div_eq ts.length accts.length hk hr0, if_pos hlt]
    · left
      rw [if_neg hlt]
      omega

/-- Accounts for the round-robin witness run. -/
def rrAcct1 : Account := freshAccount

/-- Second account of the witness pool. -/
def rrAcct2 : Account := { freshAccount with id := 2, name := "acct-2" }

/-- C1, witness: three selections from the two-account pool choose ids
1, 2, 1 — two visits for the first account, one for the second. -/
theorem round_robin_fair_witness :
    (0 < ([rrAcct1, rrAcct2] : List Account).length)
    ∧ ((select_many [5, 5, 5] { current_index := 0, db := [rrAcct1, rrAcct2] }).1.map
          (Option.map Account.id)
        = (List.range ([5, 5, 5] : List Int).length).map
            (fun m => some ((([rrAcct1, rrAcct2] : List Account).getD
                (m % ([rrAcct1, rrAcct2] : List Account).length) default).id))) := by
  refine ⟨by decide, ?_⟩
  exact (round_robin_fair [rrAcct1, rrAcct2] [5, 5, 5] (by decide) (by decide)
    (by decide) (by decide) (by decide) (by decide)).1

/-- C2: during one selection, every candidate before scan offset `i` that is
rate-limited (counter at ceiling while `now < rpm_reset_at`) is skipped, and
the first non-limited candidate is chosen; the cursor advances to just past
the chosen index (wrapping).  On the chosen account `bump_usage` performs the
update: when `rpm_reset_at` is unset or has passed, the counter is reset to 0
and `rpm_reset_at` set to `now` + 1 minute before the increment (so the new
counter is 1); otherwise the counter just increments; `total_requests` gains
1 and `last_used` becomes `now`. -/
theorem rate_limited_skip_and_bump (now : Int) (st : PoolState)
    (accounts : List Account)
    (hacc : accounts
      = (check_and_auto_recover_accounts now st.db).filter
          (fun a => a.is_active && a.is_healthy))
    (hpos : 0 < accounts.length)
    (start : Nat)
    (hstart : start = if accounts.length ≤ st.current_index then 0 else st.current_index)
    (i : Nat) (hi : i < accounts.length)
    (hskip : ∀ m, m < i →
      is_rate_limited now (accounts.getD ((start + m) % accounts.length) default) = true)
    (hfree : is_rate_limited now
      (accounts.getD ((start + i) % accounts.length) default) = false) :
    (get_next_account now st).1
      = some (bump_usage now (accounts.getD ((start + i) % accounts.length) default))
    ∧ (get_next_account now st).2.current_index
      = ((start + i) % accounts.length + 1) % accounts.length
    ∧ (∀ a : Account,
        ((a.rpm_reset_at = none ∨ ∃ t, a.rpm_reset_at = some t ∧ t ≤ now) →
           (bump_usage now a).current_rpm = 1
           ∧ (bump_usage now a).rpm_reset_at = some (now + 60))
        ∧ ((∃ t, a.rpm_reset_at = some t ∧ now < t) →
           (bump_usage now a).current_rpm = a.current_rpm + 1
           ∧ (bump_usage now a).rpm_reset_at = a.rpm_reset_at)
        ∧ (bump_usage now a).total_requests = a.total_requests + 1
        ∧ (bump_usage now a).last_used = some now) := by
  have hfind : (List.range accounts.length).find?
      (fun m => !is_rate_limited now
        (accounts.getD ((start + m) % accounts.length) default)) = some i := by
    apply range_find?_eq i _ _ hi
    · intro m hm
      rw [hskip m hm]
      rfl
    · rw [hfree]
      rfl
  have hne0 : ¬ (accounts.length = 0) := by omega
  have hmain : get_next_account now st
      = (some (bump_usage now (accounts.getD ((start + i) % accounts.length) default)),
         { current_index := ((start + i) % accounts.length + 1) % accounts.length,
           db := update_by_id (check_and_auto_recover_accounts now st.db)
             (accounts.getD ((start + i) % accounts.length) default).id
             (bump_usage now
               (accounts.getD ((start + i) % accounts.length) default)) }) := by
    simp only [get_next_account, ← hacc, if_neg hne0, ← hstart, hfind]
  refine ⟨by rw [hmain], by rw [hmain], ?_⟩
  intro a
  refine ⟨?_, ?_, ?_, ?_⟩
  · intro h
    unfold bump_usage
    rcases h with h | ⟨t, ht, hle⟩
    · simp [h]
    · simp [ht, hle]
  · rintro ⟨t, ht, hlt⟩
    unfold bump_usage
    simp [ht, Int.not_le.mpr hlt]
  · unfold bump_usage
    split <;> simp
  · unfold bump_usage
    split <;> simp

/-- A rate-limited account for the C2 witness: counter at its ceiling with a
reset instant still in the future at `now = 50`. -/
def limitedAcct : Account :=
  { freshAccount with id := 1, current_rpm := 10, rpm_reset_at := some 100 }

/-- C2, witness: at `now = 50` the pool `[limitedAcct, rrAcct2]` (cursor 0)
skips the limited first account and selects the second. -/
theorem rate_limited_skip_and_bump_witness :
    (get_next_account 50 { current_index := 0, db := [limitedAcct, rrAcct2] }).1
      = some (bump_usage 50
          (([limitedAcct, rrAcct2] : List Account).getD
            ((0 + 1) % ([limitedAcct, rrAcct2] : List Account).length) default))
    ∧ (get_next_account 50 { current_index := 0, db := [limitedAcct, rrAcct2] }).2.current_index
      = (((0 + 1) % ([limitedAcct, rrAcct2] : List Account).length + 1)
          % ([limitedAcct, rrAcct2] : List Account).length) := by
  have h := rate_limited_skip_and_bump 50
    { current_index := 0, db := [limitedAcct, rrAcct2] }
    [limitedAcct, rrAcct2] (by decide) (by decide) 0 (by decide) 1 (by decide)
    (by intro m hm; interval_cases m; decide) (by decide)
  exact ⟨h.1, h.2.1⟩

/-- JSON values as the converters see them (tool inputs, tool parameter
schemas, opaque copied parameters). -/
inductive Json where
  | null
  | bool (b : Bool)
  | num (n : Int)
  | str (s : String)
  | arr (xs : List Json)
  | obj (kvs : List (String × Json))
  deriving Repr, Inhabited

/-- Escape of one character inside a JSON string literal (the cases Python
emits for the inputs arising here). -/
def jsonEscapeChar (c : Char) : String :=
  if c = '\\' then "\\\\"
  else if c = '\"' then "\\\""
  else if c = '\n' then "\\n"
  else String.singleton c

/-- Escape of a whole JSON string body. -/
def jsonEscape (s : String) : String :=
  String.join (s.data.map jsonEscapeChar)

mutual

/-- Python `json.dumps` with its default separators (`", "` and `": "`),
restricted to the JSON fragment the converters serialize. -/
def Json.dumps : Json → String
  | Json.null => "null"
  | Json.bool true => "true"
  | Json.bool false => "false"
  | Json.num n => toString n
  | Json.str s => "\"" ++ jsonEscape s ++ "\""
  | Json.arr xs => "[" ++ dumpsArr xs ++ "]"
  | Json.obj kvs => "\x7b" ++ dumpsObj kvs ++ "\x7d"

/-- Comma-joined array elements. -/
def dumpsArr : List Json → String
  | [] => ""
  | [x] => Json.dumps x
  | x :: y :: xs => Json.dumps x ++ ", " ++ dumpsArr (y :: xs)

/-- Comma-joined object entries. -/
def dumpsObj : List (String × Json) → String
  | [] => ""
  | [(k, v)] => "\"" ++ jsonEscape k ++ "\": " ++ Json.dumps v
  | (k, v) :: e :: xs =>
      "\"" ++ jsonEscape k ++ "\": " ++ Json.dumps v ++ ", " ++ dumpsObj (e :: xs)

end

/-- One element of an OpenAI list-valued message content, keeping the fields
`convert_openai_content_to_claude` reads: `item.get("type")`,
`item.get("text")` and `item.get("image_url", \x7b\x7d).get("url")`.  A
`none` field models an absent key. -/
structure OAIItem where
  itemType : Option String
  text : Option String
  imageUrl : Option String
  deriving Repr, DecidableEq, Inhabited

/-- An OpenAI message content value: a plain string, a list of typed parts,
JSON `null`, or any other JSON value (opaque to the converter). -/
inductive OAIContent where
  | str (s : String)
  | items (l : List OAIItem)
  | nullVal
  | other
  deriving Repr, DecidableEq, Inhabited

/-- Python truthiness of an `OAIContent` value (`.other` stands for the
remaining non-empty JSON values, which are truthy). -/
def OAIContent.truthy : OAIContent → Bool
  | OAIContent.str s => !s.isEmpty
  | OAIContent.items l => !l.isEmpty
  | OAIContent.nullVal => false
  | OAIContent.other => true

/-- A Claude content part produced by the converter. -/
inductive ClaudePart where
  | text (t : String)
  | imageBase64 (mediaType data : String)
  | imageUrl (url : String)
  | toolResult (toolUseId : Option String) (content : OAIContent)
  deriving Repr, DecidableEq

/-- Result of `convert_openai_content_to_claude`: strings, null and opaque
values pass through; a list becomes converted parts, or is returned as the
original item list when no part was produced. -/
inductive ClaudeContent where
  | str (s : String)
  | parts (ps : List ClaudePart)
  | originalItems (l : List OAIItem)
  | nullVal
  | other
  deriving Repr, DecidableEq

/-- Character class `[a-zA-Z0-9+.-]` of the data-URL media-type group. -/
def isMimeChar (c : Char) : Bool :=
  c.isAlpha || c.isDigit || c = '+' || c = '.' || c = '-'

/-- Character class `[A-Za-z0-9+/=]` of the data-URL payload group. -/
def isB64Char (c : Char) : Bool :=
  c.isAlpha || c.isDigit || c = '+' || c = '/' || c = '='

/-- Strips an exact literal from the front of a character list. -/
def dropLit : List Char → List Char → Option (List Char)
  | [], cs => some cs
  | _ :: _, [] => none
  | p :: ps, c :: cs => if c = p then dropLit ps cs else none

/-- The anchored pattern of openai_converter.py line 171,
`re.match` against `data:(image\x2f[a-zA-Z0-9+.-]+);base64,([A-Za-z0-9+\x2f=]+)$`:
returns the media type and payload groups on a match.  Both character
classes exclude the following delimiter, so greedy matching is maximal-munch;
CPython's `$` also matches just before one trailing newline, which the final
case reproduces. -/
def dataUrlMatch (url : String) : Option (String × String) :=
  match dropLit ("data:image/".data) url.data with
  | none => none
  | some rest =>
    let mime := rest.takeWhile isMimeChar
    if mime.isEmpty then none
    else
      match dropLit (";base64,".data) (rest.dropWhile isMimeChar) with
      | none => none
      | some rest2 =>
        let payload := rest2.takeWhile isB64Char
        if payload.isEmpty then none
        else
          match rest2.dropWhile isB64Char with
          | [] => some (("image/" ++ String.mk mime), String.mk payload)
          | ['\n'] => some (("image/" ++ String.mk mime), String.mk payload)
          | _ => none

/-- Python's `str.startswith`, computed over the character lists so that the
kernel can evaluate it on literals. -/
def str_startswith (pre s : String) : Bool :=
  (dropLit pre.data s.data).isSome

/-- Conversion of one list element (openai_converter.py 151-191): a text item
keeps its text, an image item becomes a base64-sourced image when the data
URL matches the anchored pattern (dropped when it starts with `data:` but
does not match) and a URL-sourced image otherwise; any other type is
dropped.  No case raises. -/
def convert_item (item : OAIItem) : List ClaudePart :=
  if item.itemType = some ("text") then
    [ClaudePart.text (item.text.getD (""))]
  else if item.itemType = some ("image_url") then
    let url := item.imageUrl.getD ("")
    if str_startswith ("data:") url then
      match dataUrlMatch url with
      | some (mt, dt) => [ClaudePart.imageBase64 mt dt]
      | none => []
    else
      [ClaudePart.imageUrl url]
  else []

/-- `convert_openai_content_to_claude` (openai_converter.py 134-195). -/
def convert_openai_content_to_claude : OAIContent → ClaudeContent
  | OAIContent.str s => ClaudeContent.str s
  | OAIContent.items l =>
    let cc := l.flatMap convert_item
    if cc.isEmpty then ClaudeContent.originalItems l else ClaudeContent.parts cc
  | OAIContent.nullVal => ClaudeContent.nullVal
  | OAIContent.other => ClaudeContent.other

/-- One inbound OpenAI message: `msg.get("role")`, `msg.get("content")` and
`msg.get("tool_call_id")`. -/
structure OAIMessage where
  role : Option String
  content : OAIContent
  toolCallId : Option String
  deriving Repr, DecidableEq, Inhabited

/-- One canonical (Claude-side) message. -/
structure ClaudeMessage where
  role : String
  content : ClaudeContent
  deriving Repr, DecidableEq

/-- Loop body of openai_converter.py 65-91: a system message overwrites the
pending system value; user and assistant messages are converted and
appended; a tool message becomes a user message holding one tool_result part
keyed by the original tool-call id; any other role is dropped. -/
def openai_msgs_step (acc : Option OAIContent × List ClaudeMessage) (msg : OAIMessage) :
    Option OAIContent × List ClaudeMessage :=
  if msg.role = some ("system") then
    (some msg.content, acc.2)
  else if msg.role = some ("user") then
    (acc.1, acc.2 ++ [⟨"user", convert_openai_content_to_claude msg.content⟩])
  else if msg.role = some ("assistant") then
    (acc.1, acc.2 ++ [⟨"assistant", convert_openai_content_to_claude msg.content⟩])
  else if msg.role = some ("tool") then
    (acc.1, acc.2 ++ [⟨"user",
      ClaudeContent.parts [ClaudePart.toolResult msg.toolCallId msg.content]⟩])
  else acc

/-- One OpenAI tool definition: `tool.get("type")` and the fields of its
`function` object that the converter reads. -/
structure OAITool where
  toolType : Option String
  functionName : Option String
  functionDescription : Option String
  functionParameters : Option Json
  deriving Repr, Inhabited

/-- A canonical tool definition (openai_converter.py 118-122). -/
structure ClaudeTool where
  name : Option String
  description : String
  input_schema : Json
  deriving Repr, Inhabited

/-- The inbound OpenAI request fields `convert_openai_to_claude` reads; a
`none` models an absent key (`temperature` is copied opaquely). -/
structure OAIRequest where
  model : Option String
  messages : List OAIMessage
  temperature : Option Json
  max_tokens : Option Int
  stream : Option Bool
  tools : Option (List OAITool)
  deriving Repr, Inhabited

/-- The produced Claude-format request. -/
structure ClaudeRequest where
  model : String
  messages : List ClaudeMessage
  system : Option OAIContent
  temperature : Option Json
  max_tokens : Int
  stream : Bool
  tools : Option (List ClaudeTool)
  deriving Repr, Inhabited

/-- `convert_openai_model_to_claude` (openai_converter.py 198-204): the
model name passes through unmapped. -/
def convert_openai_model_to_claude (m : String) : String := m

/-- `convert_openai_to_claude` (openai_converter.py 11-131). -/
def convert_openai_to_claude (req : OAIRequest) : ClaudeRequest :=
  let folded := req.messages.foldl openai_msgs_step (none, [])
  { model := convert_openai_model_to_claude (req.model.getD ("gpt-4"))
    messages := folded.2
    system :=
      match folded.1 with
      | some c => if c.truthy then some c else none
      | none => none
    temperature := req.temperature
    max_tokens := req.max_tokens.getD 4096
    stream := req.stream.getD false
    tools :=
      match req.tools with
      | none => none
      | some ts =>
        let cts := ts.filterMap fun t =>
          if t.toolType = some ("function") then
            some { name := t.functionName,
                   description := t.functionDescription.getD (""),
                   input_schema := t.functionParameters.getD (Json.obj []) }
          else none
        if cts.isEmpty then none else some cts }

/-- The content of the last system-role message of a message list, if any. -/
def lastSystemContent (msgs : List OAIMessage) : Option OAIContent :=
  (msgs.filterMap fun m =>
    if m.role = some ("system") then some m.content else none).getLast?

/-- `getLast?` of a cons, phrased as a fallback. -/
theorem getLast?_cons_eq {α : Type} :
    ∀ (a : α) (l : List α),
      (a :: l).getLast? = (match l.getLast? with
        | some c => some c
        | none => some a) := by
  intro a l
  induction l generalizing a with
  | nil => rfl
  | cons b l ih =>
    rw [List.getLast?_cons_cons, ih b]
    cases hl : l.getLast? <;> simp

/-- The message fold keeps the content of the last system message (or the
initial value when there is none). -/
theorem openai_msgs_fold_system :
    ∀ (msgs : List OAIMessage) (s0 : Option OAIContent) (ms0 : List ClaudeMessage),
      (msgs.foldl openai_msgs_step (s0, ms0)).1
        = (match lastSystemContent msgs with
           | some c => some c
           | none => s0) := by
  intro msgs
  induction msgs with
  | nil => intro s0 ms0; rfl
  | cons msg rest ih =>
    intro s0 ms0
    by_cases hsys : msg.role = some ("system")
    · have hstep : openai_msgs_step (s0, ms0) msg = (some msg.content, ms0) := by
        unfold openai_msgs_step
        rw [if_pos hsys]
      rw [List.foldl_cons, hstep, ih]
      unfold lastSystemContent
      rw [List.filterMap_cons]
      simp only [if_pos hsys, getLast?_cons_eq]
      cases hrest : (rest.filterMap fun m =>
          if m.role = some ("system") then some m.content else none).getLast? <;> rfl
    · have hstep : (openai_msgs_step (s0, ms0) msg).1 = s0 := by
        unfold openai_msgs_step
        rw [if_neg hsys]
        split_ifs <;> rfl
      rw [List.foldl_cons]
      have hpair : openai_msgs_step (s0, ms0) msg
          = ((openai_msgs_step (s0, ms0) msg).1, (openai_msgs_step (s0, ms0) msg).2) := rfl
      rw [hpair, hstep, ih]
      unfold lastSystemContent
      rw [List.filterMap_cons]
      simp only [if_neg hsys]

/-- Every message the fold appends carries role `user` or `assistant`. -/
theorem openai_msgs_fold_roles :
    ∀ (msgs : List OAIMessage) (s0 : Option OAIContent) (ms0 : List ClaudeMessage),
      (∀ m ∈ ms0, m.role = "user" ∨ m.role = "assistant") →
      ∀ m ∈ (msgs.foldl openai_msgs_step (s0, ms0)).2,
        m.role = "user" ∨ m.role = "assistant" := by
  intro msgs
  induction msgs with
  | nil => intro s0 ms0 h; simpa using h
  | cons msg rest ih =>
    intro s0 ms0 h
    rw [List.foldl_cons]
    have hpair : openai_msgs_step (s0, ms0) msg
        = ((openai_msgs_step (s0, ms0) msg).1, (openai_msgs_step (s0, ms0) msg).2) := rfl
    rw [hpair]
    apply ih
    intro m hm
    unfold openai_msgs_step at hm
    split_ifs at hm with hA hB hC hD
    · exact h m hm
    · rcases List.mem_append.mp hm with hmem | hmem
      · exact h m hmem
      · left
        simpa using congrArg ClaudeMessage.role (List.mem_singleton.mp hmem)
    · rcases List.mem_append.mp hm with hmem | hmem
      · exact h m hmem
      · right
        simpa using congrArg ClaudeMessage.role (List.mem_singleton.mp hmem)
    · rcases List.mem_append.mp hm with hmem | hmem
      · exact h m hmem
      · left
        simpa using congrArg ClaudeMessage.role (List.mem_singleton.mp hmem)
    · exact h m hm

/-- A request carrying just messages (the other keys absent). -/
def mkMsgsReq (msgs : List OAIMessage) : OAIRequest :=
  { model := none, messages := msgs, temperature := none, max_tokens := none,
    stream := none, tools := none }

/-- Request with two system messages, used against the first-system rule. -/
def twoSystemReq : OAIRequest :=
  mkMsgsReq [⟨some ("system"), OAIContent.str ("A"), none⟩,
             ⟨some ("system"), OAIContent.str ("B"), none⟩,
             ⟨some ("user"), OAIContent.str ("hi"), none⟩]

/-- C6, counterexample: on a request with two system messages the canonical
system prompt is the content of the second (last) system message, not the
first, so the first-system-message rule fails. -/
theorem convert_openai_first_system_counterexample :
    (convert_openai_to_claude twoSystemReq).system = some (OAIContent.str ("B"))
    ∧ (convert_openai_to_claude twoSystemReq).system ≠ some (OAIContent.str ("A")) := by
  constructor
  · rfl
  · decide

/-- C6, amended: the canonical system prompt is taken from the last
system-role message (kept only when its content is truthy); system messages
are excluded from the canonical message list, every canonical message role
being `user` or `assistant`; and a request with one system message with
non-empty string content followed by two user/assistant turns yields a
canonical system prompt equal to the original system content and exactly 2
canonical messages. -/
theorem convert_openai_system_amended (msgs : List OAIMessage) (s : String)
    (m1 m2 : OAIMessage) (hs : s ≠ "")
    (h1 : m1.role = some ("user") ∨ m1.role = some ("assistant"))
    (h2 : m2.role = some ("user") ∨ m2.role = some ("assistant")) :
    ((msgs.foldl openai_msgs_step (none, [])).1
      = (match lastSystemContent msgs with
         | some c => some c
         | none => none))
    ∧ (∀ m ∈ (convert_openai_to_claude (mkMsgsReq msgs)).messages,
        m.role = "user" ∨ m.role = "assistant")
    ∧ (convert_openai_to_claude
        (mkMsgsReq [⟨some ("system"), OAIContent.str s, none⟩, m1, m2])).system
      = some (OAIContent.str s)
    ∧ (convert_openai_to_claude
        (mkMsgsReq [⟨some ("system"), OAIContent.str s, none⟩, m1, m2])).messages.length
      = 2 := by
  have hempty : s.isEmpty = false := by
    rw [Bool.eq_false_iff, Ne, String.isEmpty_iff]
    exact hs
  have hfold := openai_msgs_fold_system
    [⟨some ("system"), OAIContent.str s, none⟩, m1, m2] none []
  refine ⟨openai_msgs_fold_system msgs none [], ?_, ?_, ?_⟩
  · intro m hm
    exact openai_msgs_fold_roles msgs none [] (by intro m hm; simp at hm) m hm
  · show (match ([⟨some ("system"), OAIContent.str s, none⟩, m1, m2].foldl
        openai_msgs_step (none, [])).1 with
      | some c => if c.truthy then some c else none
      | none => none) = some (OAIContent.str s)
    rw [hfold]
    have hlast : lastSystemContent [⟨some ("system"), OAIContent.str s, none⟩, m1, m2]
        = some (OAIContent.str s) := by
      unfold lastSystemContent
      rcases h1 with hr1 | hr1 <;> rcases h2 with hr2 | hr2 <;>
        simp [List.filterMap_cons, hr1, hr2]
    rw [hlast]
    simp [OAIContent.truthy, hempty]
  · show ([⟨some ("system"), OAIContent.str s, none⟩, m1, m2].foldl
        openai_msgs_step (none, [])).2.length = 2
    rcases h1 with hr1 | hr1 <;> rcases h2 with hr2 | hr2 <;>
      simp [List.foldl_cons, openai_msgs_step, hr1, hr2]

/-- C6, witness for the amended theorem: one system message with content
`"S"` and a user/assistant pair yield system `"S"` and 2 messages. -/
theorem convert_openai_system_amended_witness :
    (("S" : String) ≠ "")
    ∧ (convert_openai_to_claude
        (mkMsgsReq [⟨some ("system"), OAIContent.str ("S"), none⟩,
                    ⟨some ("user"), OAIContent.str ("hi"), none⟩,
                    ⟨some ("assistant"), OAIContent.str ("yo"), none⟩])).system
      = some (OAIContent.str ("S"))
    ∧ (convert_openai_to_claude
        (mkMsgsReq [⟨some ("system"), OAIContent.str ("S"), none⟩,
                    ⟨some ("user"), OAIContent.str ("hi"), none⟩,
                    ⟨some ("assistant"), OAIContent.str ("yo"), none⟩])).messages.length
      = 2 := by
  have h := convert_openai_system_amended []
    ("S") ⟨some ("user"), OAIContent.str ("hi"), none⟩
    ⟨some ("assistant"), OAIContent.str ("yo"), none⟩
    (by decide) (Or.inl rfl) (Or.inr rfl)
  exact ⟨by decide, h.2.2.1, h.2.2.2⟩

/-- C10: a list element whose type is neither `text` nor `image_url`, or
whose data URL fails the anchored pattern, contributes no content part (and
no error is raised — `convert_item` is total); and when no element
contributes a part, the converter returns the original item list unchanged
instead of an empty part list. -/
theorem convert_content_drops_unknown (item : OAIItem) (rest items : List OAIItem)
    (hbad : (item.itemType ≠ some ("text") ∧ item.itemType ≠ some ("image_url"))
        ∨ (item.itemType = some ("image_url")
           ∧ str_startswith ("data:") (item.imageUrl.getD ("")) = true
           ∧ dataUrlMatch (item.imageUrl.getD ("")) = none))
    (hempty : items.flatMap convert_item = []) :
    convert_item item = []
    ∧ (item :: rest).flatMap convert_item = rest.flatMap convert_item
    ∧ convert_openai_content_to_claude (OAIContent.items items)
        = ClaudeContent.originalItems items := by
  have hnil : convert_item item = [] := by
    rcases hbad with ⟨hA, hB⟩ | ⟨hA, hB, hC⟩
    · unfold convert_item
      rw [if_neg hA, if_neg hB]
    · simp only [convert_item]
      rw [if_neg (by rw [hA]; decide), if_pos hA, if_pos hB, hC]
  refine ⟨hnil, ?_, ?_⟩
  · rw [List.flatMap_cons, hnil, List.nil_append]
  · simp only [convert_openai_content_to_claude]
    rw [hempty]
    rfl

/-- An `image_url` item whose data URL is not an image data URL. -/
def badDataUrlItem : OAIItem :=
  ⟨some ("image_url"), none, some ("data:text/plain;base64,AA")⟩

/-- C10, witness: the non-image data URL item is dropped and, being the only
item, the original one-element list is returned unchanged. -/
theorem convert_content_drops_unknown_witness :
    convert_item badDataUrlItem = []
    ∧ convert_openai_content_to_claude (OAIContent.items [badDataUrlItem])
        = ClaudeContent.originalItems [badDataUrlItem] := by
  have h := convert_content_drops_unknown badDataUrlItem [] [badDataUrlItem]
    (Or.inr ⟨by decide, by decide, by decide⟩) (by decide)
  exact ⟨h.1, h.2.2⟩

/-- The `content_block` object carried by block events: its `type`, `id`,
`name` and `input` keys (each `none` when absent). -/
structure ClaudeBlock where
  blockType : Option String
  id : Option String
  name : Option String
  input : Option Json
  deriving Repr, Inhabited

/-- The `delta` object of a `content_block_delta` event. -/
structure ClaudeDelta where
  deltaType : Option String
  text : Option String
  deriving Repr, DecidableEq, Inhabited

/-- The `usage` object of a `message_stop` event. -/
structure ClaudeUsage where
  input_tokens : Option Int
  output_tokens : Option Int
  deriving Repr, DecidableEq, Inhabited

/-- The `message` object of a `message_start` event; only its `model` key is
read. -/
structure ClaudeMessageObj where
  model : Option String
  deriving Repr, DecidableEq, Inhabited

/-- One upstream (Claude-format) SSE event as read by the converters.  A
`none` in `message` or `content_block` models an absent key or a falsy
(empty) object — the code guards both the same way. -/
structure ClaudeEvent where
  eventType : Option String
  created : Option Int
  model : Option String
  message : Option ClaudeMessageObj
  delta : Option ClaudeDelta
  content_block : Option ClaudeBlock
  index : Option Int
  stop_reason : Option String
  usage : Option ClaudeUsage
  deriving Repr, Inhabited

/-- An event with every key absent, to be completed field by field. -/
def emptyEvent : ClaudeEvent :=
  { eventType := none, created := none, model := none, message := none,
    delta := none, content_block := none, index := none, stop_reason := none,
    usage := none }

/-- One `tool_calls` entry of an outbound OpenAI stream chunk. -/
structure OAIToolCallDelta where
  index : Int
  id : Option String
  callType : String
  functionName : Option String
  functionArguments : String
  deriving Repr, DecidableEq, Inhabited

/-- The `delta` object of an outbound OpenAI stream chunk. -/
structure OAIStreamDelta where
  role : Option String
  content : Option String
  tool_calls : Option (List OAIToolCallDelta)
  deriving Repr, DecidableEq, Inhabited

/-- One outbound OpenAI stream chunk (`object = "chat.completion.chunk"`,
one choice at index 0; the random `chatcmpl-` id is abstracted away). -/
structure OAIStreamChunk where
  created : Int
  model : String
  choiceIndex : Int
  delta : OAIStreamDelta
  finish_reason : Option String
  deriving Repr, DecidableEq, Inhabited

/-- An outbound SSE frame: a data chunk, or the literal `[DONE]` sentinel. -/
inductive StreamFrame where
  | chunk (c : OAIStreamChunk)
  | done
  deriving Repr, DecidableEq, Inhabited

/-- The stop-reason table of openai_converter.py 327-333 with its `.get`
default: `end_turn` and `stop_sequence` map to `stop`, `max_tokens` to
`length`, `tool_use` to `tool_calls`, anything else to `stop`. -/
def finish_reason_map (stop_reason : String) : String :=
  if stop_reason = "end_turn" then "stop"
  else if stop_reason = "max_tokens" then "length"
  else if stop_reason = "stop_sequence" then "stop"
  else if stop_reason = "tool_use" then "tool_calls"
  else "stop"

/-- `convert_claude_to_openai_stream` (openai_converter.py 207-348), with
the emitted SSE text modelled structurally: the returned string of frames
becomes a list of frames (`message_stop` returns the finish chunk followed
by the `[DONE]` sentinel in one string), and `None` stays `none`. -/
def convert_claude_to_openai_stream (e : ClaudeEvent) (event_type : String) :
    Option (List StreamFrame) :=
  if event_type = "message_start" then
    some [StreamFrame.chunk
      { created := e.created.getD 0, model := e.model.getD ("gpt-4"),
        choiceIndex := 0,
        delta := { role := some ("assistant"), content := some (""),
                   tool_calls := none },
        finish_reason := none }]
  else if event_type = "content_block_delta" then
    let d := e.delta.getD { deltaType := none, text := none }
    if d.deltaType = some ("text_delta") then
      some [StreamFrame.chunk
        { created := e.created.getD 0, model := e.model.getD ("gpt-4"),
          choiceIndex := 0,
          delta := { role := none, content := some (d.text.getD ("")),
                     tool_calls := none },
          finish_reason := none }]
    else none
  else if event_type = "content_block_start" then
    match e.content_block with
    | some b =>
      if b.blockType = some ("tool_use") then
        some [StreamFrame.chunk
          { created := e.created.getD 0, model := e.model.getD ("gpt-4"),
            choiceIndex := 0,
            delta := { role := none, content := none,
                       tool_calls := some [{ index := e.index.getD 0, id := b.id,
                                             callType := "function",
                                             functionName := b.name,
                                             functionArguments := "" }] },
            finish_reason := none }]
      else none
    | none => none
  else if event_type = "content_block_stop" then
    match e.content_block with
    | some b =>
      if b.blockType = some ("tool_use") then
        some [StreamFrame.chunk
          { created := e.created.getD 0, model := e.model.getD ("gpt-4"),
            choiceIndex := 0,
            delta := { role := none, content := none,
                       tool_calls := some [{ index := e.index.getD 0, id := b.id,
                                             callType := "function",
                                             functionName := b.name,
                                             functionArguments :=
                                               Json.dumps (b.input.getD (Json.obj [])) }] },
            finish_reason := none }]
      else none
    | none => none
  else if event_type = "message_stop" then
    some [StreamFrame.chunk
      { created := e.created.getD 0, model := e.model.getD ("gpt-4"),
        choiceIndex := 0,
        delta := { role := none, content := none, tool_calls := none },
        finish_reason := some (finish_reason_map (e.stop_reason.getD ("stop"))) },
      StreamFrame.done]
  else none

/-- Driving the per-event converter over a whole event sequence and
concatenating the emitted frames in order. -/
def stream_convert_all (events : List (ClaudeEvent × String)) : List StreamFrame :=
  events.flatMap fun p => (convert_claude_to_openai_stream p.1 p.2).getD []

/-- One accumulated tool call of the non-streaming aggregation. -/
structure NSToolCall where
  id : Option String
  callType : String
  functionName : Option String
  functionArguments : String
  deriving Repr, DecidableEq, Inhabited

/-- Accumulator of `convert_claude_to_openai_non_stream`. -/
structure NSState where
  content_parts : List String
  tool_calls : List NSToolCall
  finish_reason : String
  model : String
  created : Int
  deriving Repr, DecidableEq

/-- The update loop of openai_converter.py 413-416: set the arguments of the
first accumulated tool call whose id equals the stop event's tool-use id,
then stop. -/
def fill_tool_args : List NSToolCall → Option String → String → List NSToolCall
  | [], _, _ => []
  | tc :: rest, tid, args =>
    if tc.id = tid then { tc with functionArguments := args } :: rest
    else tc :: fill_tool_args rest tid args

/-- One iteration of the event loop of
`convert_claude_to_openai_non_stream` (openai_converter.py 374-426). -/
def ns_step (st : NSState) (e : ClaudeEvent) : NSState :=
  if e.eventType = some ("message_start") then
    { st with
      model := match e.message with
        | some m => m.model.getD (e.model.getD ("gpt-4"))
        | none => e.model.getD ("gpt-4"),
      created := e.created.getD st.created }
  else if e.eventType = some ("content_block_delta") then
    let d := e.delta.getD { deltaType := none, text := none }
    if d.deltaType = some ("text_delta") then
      let t := d.text.getD ("")
      if t = "" then st
      else { st with content_parts := st.content_parts ++ [t] }
    else st
  else if e.eventType = some ("content_block_start") then
    match e.content_block with
    | some b =>
      if b.blockType = some ("tool_use") then
        { st with tool_calls := st.tool_calls
            ++ [{ id := b.id, callType := "function", functionName := b.name,
                  functionArguments := "" }] }
      else st
    | none => st
  else if e.eventType = some ("content_block_stop") then
    match e.content_block with
    | some b =>
      if b.blockType = some ("tool_use") then
        { st with tool_calls := (fill_tool_args st.tool_calls b.id
            (Json.dumps (b.input.getD (Json.obj [])))) }
      else st
    | none => st
  else if e.eventType = some ("message_stop") then
    { st with finish_reason := finish_reason_map (e.stop_reason.getD ("stop")) }
  else st

/-- The usage scan of openai_converter.py 459-467: the last `message_stop`
event decides; missing usage counts default to zero; the total is the sum of
input and output. -/
def usage_from_events (events : List ClaudeEvent) : Int × Int × Int :=
  match events.reverse.find? (fun e => e.eventType == some ("message_stop")) with
  | some e =>
    match e.usage with
    | some u => (u.input_tokens.getD 0, u.output_tokens.getD 0,
                 u.input_tokens.getD 0 + u.output_tokens.getD 0)
    | none => (0, 0, 0)
  | none => (0, 0, 0)

/-- One choice of the aggregated response. -/
structure NSChoice where
  choiceIndex : Int
  messageRole : String
  messageContent : Option String
  messageToolCalls : Option (List NSToolCall)
  finish_reason : String
  deriving Repr, DecidableEq, Inhabited

/-- The aggregated non-streaming response (random id abstracted away). -/
structure NSResponse where
  created : Int
  model : String
  choices : List NSChoice
  usagePromptTokens : Int
  usageCompletionTokens : Int
  usageTotalTokens : Int
  deriving Repr, DecidableEq

/-- `convert_claude_to_openai_non_stream` (openai_converter.py 351-476);
`now0` stands for the `datetime.now()` timestamp used when no event carries
`created`.  Text deltas are concatenated in arrival order; the message
content is the concatenation when non-empty and `None` otherwise; tool calls
are attached when any were collected. -/
def convert_claude_to_openai_non_stream (now0 : Int) (events : List ClaudeEvent) :
    NSResponse :=
  let st := events.foldl ns_step
    { content_parts := [], tool_calls := [], finish_reason := "stop",
      model := "gpt-4", created := now0 }
  let content := String.join st.content_parts
  let u := usage_from_events events
  { created := st.created, model := st.model,
    choices := [{ choiceIndex := 0, messageRole := "assistant",
                  messageContent := if content = "" then none else some content,
                  messageToolCalls := if st.tool_calls.isEmpty then none
                                      else some st.tool_calls,
                  finish_reason := st.finish_reason }],
    usagePromptTokens := u.1,
    usageCompletionTokens := u.2.1,
    usageTotalTokens := u.2.2 }

/-- The `message_start` event of the streaming scenario. -/
def msgStartEv : ClaudeEvent :=
  { emptyEvent with eventType := some ("message_start") }

/-- The `content_block_delta` event carrying text `"Hi"`. -/
def hiDeltaEv : ClaudeEvent :=
  { emptyEvent with eventType := some ("content_block_delta"),
                    delta := some { deltaType := some ("text_delta"),
                                    text := some ("Hi") } }

/-- The `message_stop` event with stop reason `end_turn`. -/
def endTurnStopEv : ClaudeEvent :=
  { emptyEvent with eventType := some ("message_stop"),
                    stop_reason := some ("end_turn") }

/-- C7: re-framing `message_start`, `content_block_delta("Hi")`,
`message_stop(end_turn)` emits, in order, the assistant role chunk with
empty content, the `"Hi"` content chunk, the finish chunk with
`finish_reason = "stop"`, then the `[DONE]` sentinel; and the stop-reason
mapping sends `end_turn` and `stop_sequence` to `stop`, `max_tokens` to
`length`, `tool_use` to `tool_calls`, and anything unrecognized to `stop`. -/
theorem stream_reframe_hi (s : String)
    (hs1 : s ≠ "end_turn") (hs2 : s ≠ "max_tokens")
    (hs3 : s ≠ "stop_sequence") (hs4 : s ≠ "tool_use") :
    stream_convert_all
        [(msgStartEv, "message_start"), (hiDeltaEv, "content_block_delta"),
         (endTurnStopEv, "message_stop")]
      = [StreamFrame.chunk
           { created := 0, model := "gpt-4", choiceIndex := 0,
             delta := { role := some ("assistant"), content := some (""),
                        tool_calls := none },
             finish_reason := none },
         StreamFrame.chunk
           { created := 0, model := "gpt-4", choiceIndex := 0,
             delta := { role := none, content := some ("Hi"), tool_calls := none },
             finish_reason := none },
         StreamFrame.chunk
           { created := 0, model := "gpt-4", choiceIndex := 0,
             delta := { role := none, content := none, tool_calls := none },
             finish_reason := some ("stop") },
         StreamFrame.done]
    ∧ finish_reason_map ("end_turn") = "stop"
    ∧ finish_reason_map ("max_tokens") = "length"
    ∧ finish_reason_map ("stop_sequence") = "stop"
    ∧ finish_reason_map ("tool_use") = "tool_calls"
    ∧ finish_reason_map s = "stop" := by
  refine ⟨by decide, by decide, by decide, by decide, by decide, ?_⟩
  unfold finish_reason_map
  rw [if_neg hs1, if_neg hs2, if_neg hs3, if_neg hs4]

/-- C7, witness: the unrecognized stop reason `"banana"` maps to `stop`. -/
theorem stream_reframe_hi_witness :
    (("banana" : String) ≠ "end_turn")
    ∧ finish_reason_map ("banana") = "stop" := by
  refine ⟨by decide, ?_⟩
  exact (stream_reframe_hi ("banana") (by decide) (by decide) (by decide)
    (by decide)).2.2.2.2.2

/-- The `content_block_delta` event carrying text `"Hello"`. -/
def helloDeltaEv : ClaudeEvent :=
  { emptyEvent with eventType := some ("content_block_delta"),
                    delta := some { deltaType := some ("text_delta"),
                                    text := some ("Hello") } }

/-- The `message_stop` event carrying usage `{input: 3, output: 2}`. -/
def usageStopEv : ClaudeEvent :=
  { emptyEvent with eventType := some ("message_stop"),
                    usage := some { input_tokens := some 3,
                                    output_tokens := some 2 } }

/-- C8: aggregating one `"Hello"` text delta and a `message_stop` with usage
`{input: 3, output: 2}` yields exactly one response with one choice whose
message content is `"Hello"`, `finish_reason = "stop"`, and usage
`{prompt: 3, completion: 2, total: 3 + 2}`. -/
theorem non_stream_aggregation_hello :
    convert_claude_to_openai_non_stream 0 [helloDeltaEv, usageStopEv]
      = { created := 0, model := "gpt-4",
          choices := [{ choiceIndex := 0, messageRole := "assistant",
                        messageContent := some ("Hello"),
                        messageToolCalls := none, finish_reason := "stop" }],
          usagePromptTokens := 3, usageCompletionTokens := 2,
          usageTotalTokens := 3 + 2 } := by decide

/-- A `content_block_start` event opening a tool-use block. -/
def mkStartEv (idx : Int) (tid nm : String) : ClaudeEvent :=
  { emptyEvent with eventType := some ("content_block_start"), index := some idx,
                    content_block := some { blockType := some ("tool_use"),
                                            id := some tid, name := some nm,
                                            input := none } }

/-- A `content_block_stop` event carrying the block's final descriptor. -/
def mkStopEv (idx : Int) (tid nm : String) (inp : Json) : ClaudeEvent :=
  { emptyEvent with eventType := some ("content_block_stop"), index := some idx,
                    content_block := some { blockType := some ("tool_use"),
                                            id := some tid, name := some nm,
                                            input := some inp } }

/-- C9, counterexample: the sequence opens tool call `"a"` at block index 0
and `"b"` at index 1, then a `content_block_stop` carrying block index 0 but
tool-use id `"b"` arrives.  If the block index were the authority, the call
opened at index 0 (id `"a"`) would receive the arguments; instead the
aggregation fills the id-matching call `"b"` and leaves `"a"` empty. -/
theorem tool_stop_index_counterexample :
    (convert_claude_to_openai_non_stream 0
        [mkStartEv 0 ("a") ("f"), mkStartEv 1 ("b") ("g"),
         mkStopEv 0 ("b") ("g") (Json.obj [("location", Json.str ("SF"))])]).choices.map
        (fun c => c.messageToolCalls)
      = [some [{ id := some ("a"), callType := "function",
                 functionName := some ("f"), functionArguments := "" },
               { id := some ("b"), callType := "function",
                 functionName := some ("g"),
                 functionArguments :=
                   Json.dumps (Json.obj [("location", Json.str ("SF"))]) }]]
    ∧ Json.dumps (Json.obj [("location", Json.str ("SF"))]) ≠ "" := by decide

/-- C9, amended: in the non-streaming aggregation the tool-use id carried in
the stop event's `content_block` is the authority: the arguments fill the
first accumulated tool call with that id, regardless of any of the block
indices; the streaming converter likewise emits the stop event's own
embedded id, name and serialized input without consulting earlier starts. -/
theorem tool_stop_matches_by_id (idA idB nA nB : String) (inp : Json)
    (i0 i1 iStop : Int) (now0 : Int) (hne : idA ≠ idB) :
    (convert_claude_to_openai_non_stream now0
        [mkStartEv i0 idA nA, mkStartEv i1 idB nB, mkStopEv iStop idB nB inp]).choices
      = [{ choiceIndex := 0, messageRole := "assistant",
           messageContent := none,
           messageToolCalls := some
             [{ id := some idA, callType := "function", functionName := some nA,
                functionArguments := "" },
              { id := some idB, callType := "function", functionName := some nB,
                functionArguments := Json.dumps inp }],
           finish_reason := "stop" }]
    ∧ convert_claude_to_openai_stream (mkStopEv iStop idB nB inp)
        ("content_block_stop")
      = some [StreamFrame.chunk
          { created := 0, model := "gpt-4", choiceIndex := 0,
            delta := { role := none, content := none,
                       tool_calls := some [{ index := iStop, id := some idB,
                                             callType := "function",
                                             functionName := some nB,
                                             functionArguments := Json.dumps inp }] },
            finish_reason := none }] := by
  constructor
  · simp only [convert_claude_to_openai_non_stream, List.foldl_cons, List.foldl_nil,
      ns_step, mkStartEv, mkStopEv, emptyEvent]
    simp [fill_tool_args, hne, usage_from_events, String.join]
  · simp [convert_claude_to_openai_stream, mkStopEv, emptyEvent]

/-- C9, witness for the amended theorem at ids `"a"` and `"b"`. -/
theorem tool_stop_matches_by_id_witness :
    (("a" : String) ≠ "b")
    ∧ (convert_claude_to_openai_non_stream 0
        [mkStartEv 5 ("a") ("f"), mkStartEv 7 ("b") ("g"),
         mkStopEv 9 ("b") ("g") (Json.obj [])]).choices
      = [{ choiceIndex := 0, messageRole := "assistant",
           messageContent := none,
           messageToolCalls := some
             [{ id := some ("a"), callType := "function", functionName := some ("f"),
                functionArguments := "" },
              { id := some ("b"), callType := "function", functionName := some ("g"),
                functionArguments := Json.dumps (Json.obj []) }],
           finish_reason := "stop" }] := by
  refine ⟨by decide, ?_⟩
  exact (tool_stop_matches_by_id ("a") ("b") ("f") ("g") (Json.obj []) 5 7 9 0
    (by decide)).1

/-- A cached token entry as stored under `token:account:<id>`
(redis_cache.py 106-112). -/
structure TokenCache where
  access_token : String
  refresh_token : Option String
  expires_at : Int
  deriving Repr, DecidableEq

/-- `get_token_cache` (redis_cache.py 61-90) on the entry stored for one
account: the cached entry is returned while `now < expires_at` (no safety
margin at this layer); otherwise it is deleted and the lookup reports a
miss.  First component is the returned value, second the stored entry
afterwards. -/
def get_token_cache (now : Int) (stored : Option TokenCache) :
    Option TokenCache × Option TokenCache :=
  match stored with
  | some c => if now < c.expires_at then (some c, some c) else (none, none)
  | none => (none, none)

/-- Outcome of the cache-consultation prologue of
`refresh_token_for_account` (auth.py 42-56). -/
inductive CacheConsult where
  | raisedUnboundLocal
  | cacheMiss
  deriving Repr, DecidableEq

/-- The cache-consultation prologue of `refresh_token_for_account`
(auth.py 42-56).  When `get_token_cache` returns a hit, line 51 evaluates
`expires_at - timedelta(minutes=5)`; but `timedelta` is a local variable of
the function (it is assigned only by the `from datetime import datetime,
timedelta` statement on line 112, which has not run yet) and the module
imports of auth.py never bind it, so CPython raises
`UnboundLocalError: local variable 'timedelta' referenced before assignment`.
Lines 42-56 sit outside the `try` block that starts on line 58, so the
exception propagates and neither the cached token nor a fresh exchange is
produced.  On a miss the function falls through to the credential
exchange. -/
def refresh_token_cache_consult (now : Int) (stored : Option TokenCache) :
    CacheConsult :=
  match (get_token_cache now stored).1 with
  | some _ => CacheConsult.raisedUnboundLocal
  | none => CacheConsult.cacheMiss

/-- A cached token valid for another 10 minutes at `now = 0`. -/
def freshTokenCache : TokenCache :=
  { access_token := "tok", refresh_token := none, expires_at := 600 }

/-- C5, code bug: at `now = 0` the cached token satisfies
`now < expiry - 5 minutes`, so the claim requires the lookup to return it;
instead the consultation raises `UnboundLocalError` (missing `timedelta`
binding at auth.py line 51), so the cached token is never served and no
fresh exchange happens on a hit either.  Moreover the redis-layer lookup
`get_token_cache` itself applies no safety margin: at `now = 400`, inside
the 5-minute margin (`400 ≥ 600 - 300`), it still returns the entry. -/
theorem token_cache_consult_raises :
    ((0 : Int) < freshTokenCache.expires_at - 300)
    ∧ refresh_token_cache_consult 0 (some freshTokenCache)
        = CacheConsult.raisedUnboundLocal
    ∧ refresh_token_cache_consult 0 (some freshTokenCache) ≠ CacheConsult.cacheMiss
    ∧ ((600 : Int) - 300 ≤ 400)
    ∧ (get_token_cache 400 (some freshTokenCache)).1 = some freshTokenCache := by
  decide
